import Mathlib

/-!
Verification of the schedule-to-recurrence compiler and the event
reconciliation engine of the Halton Hills swim-schedule importer.

The TypeScript sources are shallowly embedded as executable Lean
definitions: pure helpers become Lean functions, the effectful retry and
reconciliation code becomes explicit outcome-sequence passing, and the
JavaScript Date and Intl semantics are modelled by the standard proleptic
Gregorian day-number bijection (the arithmetic underlying ECMAScript
MakeDay and the Date field accessors) together with fixed-offset timezone
environments.  Offsets follow the getTimezoneOffset convention: the offset
of a zone, in minutes, is UTC minus local time.
-/

/-- A civil calendar date (proleptic Gregorian), as JavaScript exposes it
via getFullYear, getMonth plus one, and getDate. -/
structure Ymd where
  y : Int
  m : Int
  d : Int
deriving DecidableEq

/-- Day number of a civil date, with day 0 = 1970-01-01: the standard
civil-to-days conversion underlying ECMAScript MakeDay.  All divisions are
floor divisions (the divisors are positive, so Int division computes
them). -/
def daysFromCivil (y m d : Int) : Int :=
  let yAdj := if m ≤ 2 then y - 1 else y
  let era := yAdj / 400
  let yoe := yAdj - era * 400
  let doy := (153 * (if m > 2 then m - 3 else m + 9) + 2) / 5 + d - 1
  let doe := yoe * 365 + yoe / 4 - yoe / 100 + doy
  era * 146097 + doe - 719468

/-- Civil date of a day of era, for era and day-of-era already split out:
the core of the standard days-to-civil conversion underlying the
ECMAScript Date field accessors. -/
def civilOfEraDoe (era doe : Int) : Ymd :=
  let yoe := (doe - doe / 1460 + doe / 36524 - doe / 146096) / 365
  let y := yoe + era * 400
  let doy := doe - (365 * yoe + yoe / 4 - yoe / 100)
  let mp := (5 * doy + 2) / 153
  let d := doy - (153 * mp + 2) / 5 + 1
  let m := mp + (if mp < 10 then 3 else -9)
  ⟨if m ≤ 2 then y + 1 else y, m, d⟩

/-- Civil date of a day number (inverse of `daysFromCivil`). -/
def civilFromDays (z : Int) : Ymd :=
  let era := (z + 719468) / 146097
  let doe := z + 719468 - era * 146097
  civilOfEraDoe era doe

/-- JavaScript `Date.prototype.getDay` on a day number: 0 = Sunday.
Day 0 (1970-01-01) was a Thursday, hence the offset 4. -/
def jsGetDay (z : Int) : Int := (z + 4) % 7

-- ---------------------------------------------------------------------------
-- JavaScript string and number primitives used by the sources
-- ---------------------------------------------------------------------------

/-- Decimal digit character for a value below ten. -/
def digitChar (d : Nat) : Char := Char.ofNat (48 + d)

/-- Decimal digit list of a natural number, most significant first, with
structural fuel (the fuel `n + 1` always suffices): models the JavaScript
number-to-string conversion for integers. -/
def natToCharsAux : Nat → Nat → List Char
  | 0, _ => []
  | fuel + 1, n =>
    if n < 10 then [digitChar n]
    else natToCharsAux fuel (n / 10) ++ [digitChar (n % 10)]

/-- Decimal digit list of a natural number, most significant first. -/
def natToChars (n : Nat) : List Char := natToCharsAux (n + 1) n

/-- JavaScript `String(n)` for an integer value. -/
def jsIntToString (n : Int) : String :=
  if n < 0 then "-" ++ ⟨natToChars n.natAbs⟩ else ⟨natToChars n.natAbs⟩

/-- JavaScript whitespace test, restricted to the ASCII whitespace
actually present in the schedule data. -/
def jsWhitespace (c : Char) : Bool := c = ' ' ∨ c = '\t' ∨ c = '\n' ∨ c = '\r'

/-- JavaScript `String.prototype.trim` on a character list. -/
def listTrim (cs : List Char) : List Char :=
  ((cs.dropWhile jsWhitespace).reverse.dropWhile jsWhitespace).reverse

/-- JavaScript `String.prototype.trim`. -/
def jsTrim (s : String) : String := ⟨listTrim s.data⟩

/-- ASCII lower-casing of one character, as JavaScript
`String.prototype.toLowerCase` acts on the ASCII range. -/
def jsLowerChar (c : Char) : Char :=
  if 'A' ≤ c ∧ c ≤ 'Z' then Char.ofNat (c.toNat + 32) else c

/-- Value of a (non-empty, all-digit) character list read in decimal. -/
def digitsToNat (cs : List Char) : Nat :=
  cs.foldl (fun acc c => acc * 10 + (c.toNat - 48)) 0

/-- JavaScript `Number(s)` on a character list, for the inputs this system
feeds it: after trimming, the empty string is 0 and an all-digit string is
its decimal value.  `none` models NaN (any other shape). -/
def jsNumberChars (cs : List Char) : Option Int :=
  let t := listTrim cs
  if t = [] then some 0
  else if t.all Char.isDigit then some (digitsToNat t) else none

/-- JavaScript `Number(s)`. -/
def jsNumber (s : String) : Option Int := jsNumberChars s.data

/-- JavaScript `String.prototype.split` with a single-character
separator. -/
def splitOnChar (sep : Char) : List Char → List (List Char)
  | [] => [[]]
  | c :: rest =>
    match splitOnChar sep rest with
    | [] => if c = sep then [[], []] else [[c]]
    | h :: t => if c = sep then [] :: h :: t else (c :: h) :: t

-- ---------------------------------------------------------------------------
-- helpers.ts
-- ---------------------------------------------------------------------------

/-- `pad2` from helpers.ts: `String(n).padStart(2, "0")`. -/
def pad2 (n : Int) : String :=
  let s := jsIntToString n
  ⟨List.replicate (2 - s.length) '0'⟩ ++ s

/-- `parseYMD` from helpers.ts: split a `YYYY-MM-DD` string on `-` and
read the first three components as numbers.  The source performs no
validation; `none` models the NaN/undefined garbage cases, which the
claims never exercise. -/
def parseYMD (s : String) : Option Ymd :=
  let parts := (splitOnChar '-' s.data).map jsNumberChars
  match parts[0]?, parts[1]?, parts[2]? with
  | some (some y), some (some m), some (some d) => some ⟨y, m, d⟩
  | _, _, _ => none

/-- `firstOccurrenceOnOrAfter` from helpers.ts: forward scan from the
start date to the next date (0 to 6 days later) falling on the requested
JavaScript weekday index.  JavaScript Date normalization under
`setDate` is modelled by day-number arithmetic; the remainder is
Euclidean, which agrees with the JavaScript `%` on the non-negative
operands that arise for weekday indices 0 through 6. -/
def firstOccurrenceOnOrAfter (ymd : Ymd) (weekdayIdx : Int) : Ymd :=
  let z := daysFromCivil ymd.y ymd.m ymd.d
  let delta := (weekdayIdx - jsGetDay z + 7) % 7
  civilFromDays (z + delta)

/-- `localDateTimeString` from helpers.ts. -/
def localDateTimeString (y m d hh mm ss : Int) : String :=
  jsIntToString y ++ "-" ++ pad2 m ++ "-" ++ pad2 d ++ "T" ++
    pad2 hh ++ ":" ++ pad2 mm ++ ":" ++ pad2 ss

/-- A wall-clock datetime record, as passed to `tzWallToUTC_ZString`. -/
structure WallClock where
  year : Int
  month : Int
  day : Int
  hour : Int
  minute : Int
  second : Int
deriving DecidableEq

/-- Naive seconds count of a wall-clock datetime (no timezone applied). -/
def wallSecs (w : WallClock) : Int :=
  daysFromCivil w.year w.month w.day * 86400 +
    w.hour * 3600 + w.minute * 60 + w.second

/-- The Intl timezone environment: each IANA zone name is interpreted as a
fixed offset in minutes, in the getTimezoneOffset convention
(UTC = local + offset).  This models zones without daylight saving (such
as EST or UTC) exactly. -/
structure TZEnv where
  offsetMin : String → Int

/-- JavaScript `new Date(naiveString)`: a datetime string without a zone
suffix is interpreted in the host timezone. -/
def jsParseLocalNaive (hostOffMin : Int) (naive : Int) : Int :=
  naive + hostOffMin * 60

/-- `Intl.DateTimeFormat(..., timeZone).formatToParts`: the wall-clock
reading of an absolute instant in the given fixed-offset zone, as naive
seconds. -/
def intlZoneWall (offMin : Int) (instant : Int) : Int := instant - offMin * 60

/-- Rendering of epoch seconds through the JavaScript getUTC* accessors
into the compact `YYYYMMDDTHHMMSSZ` template of the source. -/
def formatCompactZ (secs : Int) : String :=
  let days := secs / 86400
  let sod := secs % 86400
  let c := civilFromDays days
  jsIntToString c.y ++ pad2 c.m ++ pad2 c.d ++ "T" ++
    pad2 (sod / 3600) ++ pad2 (sod % 3600 / 60) ++ pad2 (sod % 60) ++ "Z"

/-- `tzWallToUTC_ZString` from helpers.ts, step for step: parse the wall
time as a host-local Date, read its parts in the named zone, parse those
parts as a host-local Date again, subtract the host offset, and render the
getUTC* fields compactly. -/
def tzWallToUTC_ZString (w : WallClock) (tz : String) (env : TZEnv)
    (hostOffMin : Int) : String :=
  let asDate := jsParseLocalNaive hostOffMin (wallSecs w)
  let parts := intlZoneWall (env.offsetMin tz) asDate
  let wallLocal := jsParseLocalNaive hostOffMin parts
  let utc := wallLocal - hostOffMin * 60
  formatCompactZ utc

/-- Modelled from the spec: the `until` bound is the absolute UTC instant
corresponding to the given local wall time in the named timezone,
formatted as a compact UTC timestamp.  (The conversion the spec
describes; used to compare against what `tzWallToUTC_ZString`
computes.) -/
def untilBoundPerSpec (w : WallClock) (tz : String) (env : TZEnv) : String :=
  formatCompactZ (wallSecs w + env.offsetMin tz * 60)

/-- `BYDAY` from helpers.ts: full weekday name to two-letter code. -/
def BYDAY (day : String) : Option String :=
  if day = "Sunday" then some "SU"
  else if day = "Monday" then some "MO"
  else if day = "Tuesday" then some "TU"
  else if day = "Wednesday" then some "WE"
  else if day = "Thursday" then some "TH"
  else if day = "Friday" then some "FR"
  else if day = "Saturday" then some "SA"
  else none

/-- `BYDAY_TO_INDEX` from helpers.ts: two-letter code to JavaScript
weekday index. -/
def BYDAY_TO_INDEX (code : String) : Option Int :=
  if code = "SU" then some 0
  else if code = "MO" then some 1
  else if code = "TU" then some 2
  else if code = "WE" then some 3
  else if code = "TH" then some 4
  else if code = "FR" then some 5
  else if code = "SA" then some 6
  else none

-- ---------------------------------------------------------------------------
-- time.ts : parseTimeRange
-- ---------------------------------------------------------------------------

/-- A 24-hour clock time as produced by the time range resolver. -/
structure ClockTime where
  hour : Nat
  minute : Nat
deriving DecidableEq

/-- A parsed time range.  `stop` models the field named `end` in the
source (a reserved word in Lean). -/
structure TimeRange where
  start : ClockTime
  stop : ClockTime
deriving DecidableEq

/-- Read one or two digits greedily (the one-or-two-digit groups of the
source regex), returning the value and the rest. -/
def takeDigits12 : List Char → Option (Nat × List Char)
  | [] => none
  | [c] => if c.isDigit then some (c.toNat - 48, []) else none
  | c1 :: c2 :: rest =>
    if c1.isDigit then
      if c2.isDigit then some ((c1.toNat - 48) * 10 + (c2.toNat - 48), rest)
      else some (c1.toNat - 48, c2 :: rest)
    else none

/-- Read the optional minutes group of the source regex: a colon followed
by exactly two digits, or nothing. -/
def takeColonMM : List Char → Option Nat × List Char
  | ':' :: a :: b :: rest =>
    if a.isDigit ∧ b.isDigit then (some ((a.toNat - 48) * 10 + (b.toNat - 48)), rest)
    else (none, ':' :: a :: b :: rest)
  | l => (none, l)

/-- Skip a run of whitespace. -/
def skipSpaces (l : List Char) : List Char := l.dropWhile jsWhitespace

/-- The optional trailing `am`/`pm` suffix followed by end of input. -/
def takeSuffix : List Char → Option (Option String)
  | [] => some none
  | ['a', 'm'] => some (some "am")
  | ['p', 'm'] => some (some "pm")
  | _ => none

/-- `parseTimeRange` from time.ts: trim and lower-case, match the range
pattern `H[:MM]-H[:MM][am|pm]`, then apply the am/pm hour adjustment with
its deliberate noon asymmetry, exactly as the source does.  `none` models
the thrown unrecognized-time-range error. -/
def parseTimeRange (rangeStr : String) : Option TimeRange :=
  let s := (listTrim rangeStr.data).map jsLowerChar
  match takeDigits12 s with
  | none => none
  | some (h1, r1) =>
    let (m1, r2) := takeColonMM r1
    let r3 := skipSpaces r2
    match r3 with
    | '-' :: r4 =>
      let r5 := skipSpaces r4
      match takeDigits12 r5 with
      | none => none
      | some (h2, r6) =>
        let (m2, r7) := takeColonMM r6
        let r8 := skipSpaces r7
        match takeSuffix r8 with
        | none => none
        | some suf =>
          let mm1 := m1.getD 0
          let mm2 := m2.getD 0
          let hh1 := h1
          let hh2 := h2
          let (hh1, hh2) :=
            match suf with
            | some "am" => (if hh1 = 12 then 0 else hh1, if hh2 = 12 then 0 else hh2)
            | some "pm" =>
              let end12 := hh2 = 12
              let hh1 := if end12 then hh1 else (if hh1 ≠ 12 then hh1 + 12 else hh1)
              let hh2 := if hh2 ≠ 12 then hh2 + 12 else hh2
              (hh1, hh2)
            | _ => (hh1, hh2)
          some ⟨⟨hh1, mm1⟩, ⟨hh2, mm2⟩⟩
    | _ => none

-- ---------------------------------------------------------------------------
-- calendar.ts : configuration, colors, keys, event objects
-- ---------------------------------------------------------------------------

/-- A configured color value: the config JSON allows strings and
numbers. -/
inductive ColorVal where
  | str : String → ColorVal
  | num : Int → ColorVal
deriving DecidableEq

/-- `PoolLocationConfig` from calendar.ts. -/
structure PoolLocationConfig where
  address : Option String
  location : Option String
  colorId : Option ColorVal
deriving DecidableEq

/-- `CalendarConfig` from calendar.ts.  The two place maps are modelled as
association lists. -/
structure CalendarConfig where
  timezone : String
  calendarId : String
  locations : List (String × PoolLocationConfig)
  places : List (String × PoolLocationConfig)
  colorId : Option ColorVal
  location : Option String
  address : Option String
deriving DecidableEq

/-- `placeConfig` from calendar.ts:
`cfg.locations?.[place] ?? cfg.places?.[place] ?? null`. -/
def placeConfig (place : String) (cfg : CalendarConfig) : Option PoolLocationConfig :=
  match cfg.locations.lookup place with
  | some c => some c
  | none => cfg.places.lookup place

/-- JavaScript `String(v)` on a config color value. -/
def jsStringOfColor : ColorVal → String
  | .str s => s
  | .num n => jsIntToString n

/-- `inferColorId` from calendar.ts: nullish-coalesce the place color with
the global color, then map undefined, null and the empty string to the
default color token. -/
def inferColorId (place : String) (cfg : CalendarConfig) : String :=
  let raw :=
    match (placeConfig place cfg).bind (fun c => c.colorId) with
    | some v => some v
    | none => cfg.colorId
  match raw with
  | none => "1"
  | some v => if v = ColorVal.str "" then "1" else jsStringOfColor v

/-- JavaScript `a || b` for an optional string `a`: both undefined and the
empty string fall through. -/
def jsOrStr (o : Option String) (dflt : String) : String :=
  match o with
  | some s => if s = "" then dflt else s
  | none => dflt

/-- `resolveLocation` from calendar.ts:
`locCfg?.address || locCfg?.location || cfg.location || cfg.address || ""`. -/
def resolveLocation (place : String) (cfg : CalendarConfig) : String :=
  let locCfg := placeConfig place cfg
  jsOrStr (locCfg.bind (fun c => c.address))
    (jsOrStr (locCfg.bind (fun c => c.location))
      (jsOrStr cfg.location (jsOrStr cfg.address "")))

/-- Season window of a schedule rule. -/
structure ScheduleSeason where
  startDate : String
  endDate : String
deriving DecidableEq

/-- `ScheduleRule` from calendar.ts. -/
structure ScheduleRule where
  summary : String
  description : Option String
  startTime : String
  endTime : String
  byDay : List String
  season : ScheduleSeason
  _place : String
deriving DecidableEq

/-- `makePrivateKey` from calendar.ts: the idempotency key template. -/
def makePrivateKey (rule : ScheduleRule) (byDay place seasonStart seasonEnd : String) :
    String :=
  rule.summary ++ "-" ++ place ++ "-" ++ byDay ++ "-" ++ rule.startTime ++ "-" ++
    rule.endTime ++ "-" ++ seasonStart ++ "-" ++ seasonEnd

/-- The compiled event object: the fields of the Google Calendar request
body that `buildEventObject` populates (the `_preview` block repeats
fields already present here). -/
structure EventObject where
  summary : String
  description : String
  location : String
  colorId : String
  startDateTime : String
  endDateTime : String
  timeZone : String
  recurrence : String
  privSource : String
  privKey : String
deriving DecidableEq

/-- `buildEventObject` from calendar.ts.  `none` models the thrown errors
(unsupported BYDAY value, unresolved time fields) and the NaN/invalid-date
garbage cases of unparsable date strings, which the claims never
exercise. -/
def buildEventObject (env : TZEnv) (hostOffMin : Int) (cfg : CalendarConfig)
    (rule : ScheduleRule) (byDay place : String) : Option EventObject :=
  let tz := cfg.timezone
  let sParts := (splitOnChar ':' rule.startTime.data).map jsNumberChars
  let eParts := (splitOnChar ':' rule.endTime.data).map jsNumberChars
  let loc := resolveLocation place cfg
  let colorId := inferColorId place cfg
  match BYDAY_TO_INDEX byDay with
  | none => none
  | some dayIndex =>
    match sParts[0]?, sParts[1]?, eParts[0]?, eParts[1]? with
    | some (some sH), some (some sM), some (some eH), some (some eM) =>
      match parseYMD rule.season.startDate, parseYMD rule.season.endDate with
      | some sYmd, some eYmd =>
        let first := firstOccurrenceOnOrAfter sYmd dayIndex
        let startDT := localDateTimeString first.y first.m first.d sH sM 0
        let endDT := localDateTimeString first.y first.m first.d eH eM 0
        let untilZ :=
          tzWallToUTC_ZString ⟨eYmd.y, eYmd.m, eYmd.d, 23, 59, 59⟩ tz env hostOffMin
        some {
          summary := rule.summary
          description := jsOrStr rule.description ""
          location := loc
          colorId := colorId
          startDateTime := startDT
          endDateTime := endDT
          timeZone := tz
          recurrence := "RRULE:FREQ=WEEKLY;BYDAY=" ++ byDay ++ ";UNTIL=" ++ untilZ
          privSource := "pool-schedule"
          privKey := makePrivateKey rule byDay place rule.season.startDate
            rule.season.endDate }
      | _, _ => none
    | _, _, _, _ => none

-- ---------------------------------------------------------------------------
-- calendar.ts : deleteEvent retry loop
-- ---------------------------------------------------------------------------

/-- Outcome of one remote delete attempt: the status carried by a thrown
error is `extractStatusCode` of it (`none` models a missing status). -/
inductive DeleteOutcome where
  | success : DeleteOutcome
  | failure : Option Int → DeleteOutcome
deriving DecidableEq

/-- The transient allow-list of `deleteEvent`. -/
def retryableStatuses : List Int := [403, 429, 500, 502, 503, 504]

/-- The retry guard of `deleteEvent`: a defined status contained in the
allow-list. -/
def statusRetryable : Option Int → Bool
  | none => false
  | some s => retryableStatuses.contains s

/-- An attempt outcome the loop is allowed to retry past: a failure whose
status is in the transient allow-list. -/
def outcomeRetryableFailure : DeleteOutcome → Bool
  | .success => false
  | .failure st => statusRetryable st

/-- Termination of a delete call: normal return or a propagated throw
(carrying the status of the thrown error). -/
inductive DeleteResult where
  | ok : DeleteResult
  | thrown : Option Int → DeleteResult
deriving DecidableEq

/-- A run of `deleteEvent`: the backoff waits performed (milliseconds, in
order) and the final result. -/
structure DeleteRun where
  waits : List Int
  result : DeleteResult
deriving DecidableEq

/-- `maxRetries` from `deleteEvent`. -/
def maxRetries : Nat := 5

/-- The while-true loop of `deleteEvent`, driven by the sequence of
attempt outcomes, with structural fuel.  The loop makes at most
`maxRetries + 1` attempts, so fuel `maxRetries + 1` is never exhausted
when starting from attempt 0. -/
def deleteEventLoop (o : Nat → DeleteOutcome) : Nat → Nat → DeleteRun
  | 0, _ => ⟨[], .thrown none⟩
  | fuel + 1, attempt =>
    match o attempt with
    | .success => ⟨[], .ok⟩
    | .failure st =>
      if attempt < maxRetries ∧ statusRetryable st = true then
        let rest := deleteEventLoop o fuel (attempt + 1)
        ⟨min (1000 * 2 ^ attempt : Int) 10000 :: rest.waits, rest.result⟩
      else ⟨[], .thrown st⟩

/-- `deleteEvent` from calendar.ts, as a function of the outcome each
attempt would produce. -/
def deleteEvent (o : Nat → DeleteOutcome) : DeleteRun :=
  deleteEventLoop o (maxRetries + 1) 0

/-- The full backoff schedule of `deleteEvent`:
`min(1000 * 2 ** attempt, 10000)` for attempts 0 through 4. -/
def fullBackoff : List Int := [1000, 2000, 4000, 8000, 10000]

-- ---------------------------------------------------------------------------
-- clear_swim_events.ts : classification and the dry-run gate
-- ---------------------------------------------------------------------------

/-- The fields of a listed remote event that the reconciliation loop
branches on. -/
structure RemoteEvent where
  id : String
  recurringEventId : Option String
deriving DecidableEq

/-- JavaScript truthiness of `ev.recurringEventId`: present and
non-empty. -/
def hasRecurringId (ev : RemoteEvent) : Bool :=
  match ev.recurringEventId with
  | some s => s != ""
  | none => false

/-- `Set.prototype.add` on an insertion-ordered set modelled as a
duplicate-free list. -/
def jsSetAdd (l : List String) (x : String) : List String :=
  if x ∈ l then l else l ++ [x]

/-- One iteration of the classification loop in `main` of
clear_swim_events.ts. -/
def classifyStep (deleteSeries : Bool) (acc : List String × List String)
    (ev : RemoteEvent) : List String × List String :=
  if deleteSeries && hasRecurringId ev then
    (acc.1, jsSetAdd acc.2 (ev.recurringEventId.getD ""))
  else
    (acc.1 ++ [ev.id], acc.2)

/-- The classification loop of clear_swim_events.ts: instance ids to
delete, and the deduplicated series ids. -/
def classifyEvents (deleteSeries : Bool) (events : List RemoteEvent) :
    List String × List String :=
  events.foldl (classifyStep deleteSeries) ([], [])

/-- A reconciliation run after listing: the planned instance and series
counts it reports, and the delete calls it issues to the store. -/
structure ReconcileRun where
  planned : Nat × Nat
  deletes : List String
deriving DecidableEq

/-- The post-listing part of `main` in clear_swim_events.ts: early return
on an empty listing, classification, the planned-count report, the
`confirm` gate, then the instance deletions followed by the series
deletions. -/
def reconcile (confirm deleteSeries : Bool) (events : List RemoteEvent) :
    ReconcileRun :=
  if events.length = 0 then ⟨(0, 0), []⟩
  else
    let plan := classifyEvents deleteSeries events
    if confirm then ⟨(plan.1.length, plan.2.length), plan.1 ++ plan.2⟩
    else ⟨(plan.1.length, plan.2.length), []⟩

-- ---------------------------------------------------------------------------
-- csv.ts : the data-row loop of parseScheduleCSV
-- ---------------------------------------------------------------------------

/-- A materialized schedule row. -/
structure ParsedRow where
  place : String
  day : String
  byDay : String
  timeRange : String
  swim : String
deriving DecidableEq

/-- Cell access in a raw record: missing cells behave like empty strings
(undefined is falsy everywhere the loop reads them), and each present
cell is trimmed as the source does. -/
def cellAt (r : List String) (i : Nat) : String := jsTrim (r.getD i "")

/-- The all-blank test of the row loop (first four cells). -/
def isBlankRow (r : List String) : Bool :=
  cellAt r 0 == "" && cellAt r 1 == "" && cellAt r 2 == "" && cellAt r 3 == ""

/-- Result of the row loop: the materialized rows, or the thrown
unrecognized-day error (carrying the offending day value; the row number
in the message is not modelled). -/
inductive RowsOut where
  | ok : List ParsedRow → RowsOut
  | badDay : String → RowsOut
deriving DecidableEq

/-- The carry-forward update for the place column:
`if (placeRaw) lastPlace = placeRaw`. -/
def carryPlace (lastPlace : String) (r : List String) : String :=
  if cellAt r 0 = "" then lastPlace else cellAt r 0

/-- The carry-forward update for the day column:
`if (dayRaw) lastDay = dayRaw`. -/
def carryDay (lastDay : String) (r : List String) : String :=
  if cellAt r 1 = "" then lastDay else cellAt r 1

/-- The data-row loop of `parseScheduleCSV` (the records after the header
row), threading the carry-forward state `lastPlace` / `lastDay`. -/
def parseRowsLoop (lastPlace lastDay : String) : List (List String) → RowsOut
  | [] => .ok []
  | r :: rest =>
    if isBlankRow r then parseRowsLoop lastPlace lastDay rest
    else
      if carryPlace lastPlace r = "" ∨ carryDay lastDay r = "" ∨ cellAt r 2 = "" then
        parseRowsLoop (carryPlace lastPlace r) (carryDay lastDay r) rest
      else
        match BYDAY (carryDay lastDay r) with
        | none => .badDay (carryDay lastDay r)
        | some code =>
          match parseRowsLoop (carryPlace lastPlace r) (carryDay lastDay r) rest with
          | .ok rs =>
            .ok (⟨carryPlace lastPlace r, carryDay lastDay r, code,
              cellAt r 2, cellAt r 3⟩ :: rs)
          | .badDay e => .badDay e

/-- Derived from the spec wording: the color the global configuration
alone would produce (used to state the fallback clause of the color
claim). -/
def globalColorIdString (cfg : CalendarConfig) : String :=
  match cfg.colorId with
  | none => "1"
  | some v => if v = ColorVal.str "" then "1" else jsStringOfColor v

-- ---------------------------------------------------------------------------
-- Concrete data used by individual claims
-- ---------------------------------------------------------------------------

/-- A fixed-offset timezone environment mapping every zone name to
UTC minus five hours (the fixed-offset IANA zone EST). -/
def estEnv : TZEnv := ⟨fun _ => 300⟩

/-- A concrete calendar configuration (EST destination, one configured
pool). -/
def cfgC1 : CalendarConfig :=
  { timezone := "EST", calendarId := "cal",
    locations :=
      [("Gellert",
        { address := some "10241 Eighth Line", location := none,
          colorId := some (.str "9") })],
    places := [], colorId := none, location := none, address := none }

/-- A concrete schedule rule for the fall 2025 season. -/
def ruleC1 : ScheduleRule :=
  { summary := "Adult Swim", description := some "Adult", startTime := "06:30",
    endTime := "07:30", byDay := ["MO"],
    season := { startDate := "2025-09-02", endDate := "2025-12-21" },
    _place := "Gellert" }

/-- A rule whose place name contains the key separator. -/
def ruleC2a : ScheduleRule :=
  { summary := "Adult Swim", description := none, startTime := "06:30",
    endTime := "07:30", byDay := ["MO"],
    season := { startDate := "2025-09-02", endDate := "2025-12-21" },
    _place := "a-b" }

/-- A different rule and place that collide with `ruleC2a` in the key. -/
def ruleC2b : ScheduleRule :=
  { ruleC2a with summary := "Adult Swim-a", _place := "b" }

/-- A well-formed rule used to witness the key-injectivity hypotheses. -/
def ruleC2w : ScheduleRule :=
  { summary := "Adult Swim", description := none, startTime := "06:30",
    endTime := "07:30", byDay := ["MO"],
    season := { startDate := "2025-09-02", endDate := "2025-12-21" },
    _place := "Gellert" }

/-- A configuration whose place-level color is the empty string while a
global color is configured. -/
def cfgC10 : CalendarConfig :=
  { timezone := "EST", calendarId := "cal",
    locations :=
      [("Gellert",
        { address := none, location := none, colorId := some (.str "") })],
    places := [], colorId := some (.str "5"), location := none, address := none }

-- ---------------------------------------------------------------------------
-- Supporting lemmas
-- ---------------------------------------------------------------------------

set_option maxHeartbeats 4000000 in
/-- The year-of-era formula inside `civilOfEraDoe` is correct: within one
400-year era the computed year is in range and the day of year it induces
is in range. -/
theorem yoe_correct (doe : Int) (h0 : 0 ≤ doe) (h1 : doe < 146097) :
    0 ≤ (doe - doe / 1460 + doe / 36524 - doe / 146096) / 365 ∧
    (doe - doe / 1460 + doe / 36524 - doe / 146096) / 365 ≤ 399 ∧
    365 * ((doe - doe / 1460 + doe / 36524 - doe / 146096) / 365) +
        ((doe - doe / 1460 + doe / 36524 - doe / 146096) / 365) / 4 -
        ((doe - doe / 1460 + doe / 36524 - doe / 146096) / 365) / 100 ≤ doe ∧
    doe - (365 * ((doe - doe / 1460 + doe / 36524 - doe / 146096) / 365) +
        ((doe - doe / 1460 + doe / 36524 - doe / 146096) / 365) / 4 -
        ((doe - doe / 1460 + doe / 36524 - doe / 146096) / 365) / 100) ≤ 365 := by
  set Y := (doe - doe / 1460 + doe / 36524 - doe / 146096) / 365 with hY
  have hb0 : 0 ≤ Y := by omega
  have hb1 : Y ≤ 399 := by omega
  refine ⟨hb0, hb1, ?_⟩
  interval_cases Y <;> omega

/-- `daysFromCivil` inverts the month/day/year decomposition produced by
the days-to-civil algorithm, stated over abstract components. -/
theorem daysFromCivil_inv (era doe Y D MP m d y : Int)
    (hY0 : 0 ≤ Y) (hY1 : Y ≤ 399)
    (hY2 : 365 * Y + Y / 4 - Y / 100 ≤ doe)
    (hY3 : doe - (365 * Y + Y / 4 - Y / 100) ≤ 365)
    (hD : D = doe - (365 * Y + Y / 4 - Y / 100))
    (hMP : MP = (5 * D + 2) / 153)
    (hm : m = MP + (if MP < 10 then 3 else -9))
    (hd : d = D - (153 * MP + 2) / 5 + 1)
    (hy : y = Y + era * 400) :
    daysFromCivil (if m ≤ 2 then y + 1 else y) m d = era * 146097 + doe - 719468 := by
  unfold daysFromCivil
  simp only []
  split_ifs at * <;> omega

set_option maxHeartbeats 1000000 in
/-- Round trip: converting a day number to a civil date and back is the
identity.  This is the key fact tying the modelled Date accessors to the
modelled MakeDay arithmetic. -/
theorem daysFromCivil_civilFromDays (z : Int) :
    daysFromCivil (civilFromDays z).y (civilFromDays z).m (civilFromDays z).d = z := by
  have hb : 0 ≤ z + 719468 - (z + 719468) / 146097 * 146097 ∧
      z + 719468 - (z + 719468) / 146097 * 146097 < 146097 := by omega
  obtain ⟨h1, h2, h3, h4⟩ := yoe_correct _ hb.1 hb.2
  have h := daysFromCivil_inv ((z + 719468) / 146097)
      (z + 719468 - (z + 719468) / 146097 * 146097) _ _ _ _ _ _
      h1 h2 h3 h4 rfl rfl rfl rfl rfl
  unfold civilFromDays civilOfEraDoe
  simp only []
  rw [h]
  omega

theorem natToCharsAux_ne_nil (fuel n : Nat) : natToCharsAux (fuel + 1) n ≠ [] := by
  unfold natToCharsAux
  split
  · simp
  · simp

theorem jsIntToString_ne_empty (n : Int) : jsIntToString n ≠ "" := by
  unfold jsIntToString
  split
  · intro h
    have := congrArg String.data h
    simp at this
  · intro h
    have := congrArg String.data h
    simp only [String.data] at this
    exact natToCharsAux_ne_nil _ _ this

/-- One-step unfolding of the delete retry loop when fuel remains. -/
theorem deleteEventLoop_succ (o : Nat → DeleteOutcome) (fuel attempt : Nat) :
    deleteEventLoop o (fuel + 1) attempt =
      match o attempt with
      | .success => ⟨[], .ok⟩
      | .failure st =>
        if attempt < maxRetries ∧ statusRetryable st = true then
          let rest := deleteEventLoop o fuel (attempt + 1)
          ⟨min (1000 * 2 ^ attempt : Int) 10000 :: rest.waits, rest.result⟩
        else ⟨[], .thrown st⟩ := rfl

/-- The loop returns immediately on success. -/
theorem deleteEventLoop_stops (o : Nat → DeleteOutcome) (fuel attempt : Nat)
    (h : o attempt = .success) :
    deleteEventLoop o (fuel + 1) attempt = ⟨[], .ok⟩ := by
  rw [deleteEventLoop_succ, h]

/-- The loop waits and retries on a retryable failure below the attempt
cap. -/
theorem deleteEventLoop_retry (o : Nat → DeleteOutcome) (fuel attempt : Nat)
    (st : Option Int) (h : o attempt = .failure st) (hlt : attempt < maxRetries)
    (hr : statusRetryable st = true) :
    deleteEventLoop o (fuel + 1) attempt =
      ⟨min (1000 * 2 ^ attempt : Int) 10000 ::
          (deleteEventLoop o fuel (attempt + 1)).waits,
        (deleteEventLoop o fuel (attempt + 1)).result⟩ := by
  rw [deleteEventLoop_succ, h]
  simp only []
  rw [if_pos ⟨hlt, hr⟩]

/-- The loop raises immediately on a non-retryable failure or at the
attempt cap. -/
theorem deleteEventLoop_throws (o : Nat → DeleteOutcome) (fuel attempt : Nat)
    (st : Option Int) (h : o attempt = .failure st)
    (hc : ¬(attempt < maxRetries ∧ statusRetryable st = true)) :
    deleteEventLoop o (fuel + 1) attempt = ⟨[], .thrown st⟩ := by
  rw [deleteEventLoop_succ, h]
  simp only []
  rw [if_neg hc]

/-- Dropping into the backoff schedule: below the cap, each position holds
the capped doubling delay. -/
theorem fullBackoff_drop (a : Nat) (h : a < 5) :
    fullBackoff.drop a = (min (1000 * 2 ^ a : Int) 10000) :: fullBackoff.drop (a + 1) := by
  interval_cases a <;> decide

/-- The waits of any run of the retry loop form a prefix of the backoff
schedule starting at the current attempt, and there are at most
`5 - attempt` of them. -/
theorem deleteEventLoop_spec (o : Nat → DeleteOutcome) :
    ∀ (fuel attempt : Nat), attempt + fuel = 6 →
      (deleteEventLoop o fuel attempt).waits =
          (fullBackoff.drop attempt).take (deleteEventLoop o fuel attempt).waits.length ∧
      (deleteEventLoop o fuel attempt).waits.length ≤ 5 - attempt := by
  intro fuel
  induction fuel with
  | zero =>
    intro attempt _
    simp [deleteEventLoop]
  | succ fuel ih =>
    intro attempt hfa
    rw [deleteEventLoop_succ]
    cases ho : o attempt with
    | success => simp
    | failure st =>
      simp only []
      by_cases hc : attempt < maxRetries ∧ statusRetryable st = true
      · rw [if_pos hc]
        have h5 : attempt < 5 := hc.1
        have ih' := ih (attempt + 1) (by omega)
        rw [fullBackoff_drop attempt h5]
        simp only [List.length_cons, List.take_succ_cons]
        exact ⟨congrArg _ ih'.1, by omega⟩
      · rw [if_neg hc]
        simp

/-- Allow-list gating at an arbitrary attempt: if every attempt before `k`
fails retryably and attempt `k` fails with a status outside the
allow-list, the loop stops at attempt `k` and raises that failure, having
performed exactly the backoff waits of the earlier retries and none for
attempt `k` itself. -/
theorem deleteEventLoop_gated (o : Nat → DeleteOutcome) :
    ∀ (fuel a : Nat), a + fuel = 6 →
      ∀ k, a ≤ k → k ≤ 5 →
        (∀ j, a ≤ j → j < k → outcomeRetryableFailure (o j) = true) →
        ∀ st, o k = .failure st → statusRetryable st = false →
        deleteEventLoop o fuel a =
          ⟨(fullBackoff.drop a).take (k - a), .thrown st⟩ := by
  intro fuel
  induction fuel with
  | zero =>
    intro a ha k hak hk5 _ st _ _
    exact absurd (le_trans hak hk5) (by omega)
  | succ fuel ih =>
    intro a ha k hak hk5 hprev st hk hst
    by_cases hek : a = k
    · subst hek
      rw [deleteEventLoop_throws o fuel a st hk (by simp [hst])]
      simp [Nat.sub_self]
    · have halt : a < k := by omega
      have hra := hprev a (le_refl a) halt
      cases hoa : o a with
      | success =>
        rw [hoa] at hra
        simp [outcomeRetryableFailure] at hra
      | failure s =>
        rw [hoa] at hra
        simp only [outcomeRetryableFailure] at hra
        rw [deleteEventLoop_retry o fuel a s hoa
          (by unfold maxRetries; omega) hra]
        have ih' := ih (a + 1) (by omega) k (by omega) hk5
          (fun j hj1 hj2 => hprev j (by omega) hj2) st hk hst
        rw [ih']
        rw [fullBackoff_drop a (by omega)]
        rw [show k - a = (k - (a + 1)) + 1 by omega, List.take_succ_cons]

-- ---------------------------------------------------------------------------
-- Claim theorems
-- ---------------------------------------------------------------------------

/-- C7: the time range resolver maps "6:30-7:30am" to 6:30 and 7:30, maps
"11-12pm" to 11:00 and 12:00 (noon, not 24:00, by the deliberate
asymmetric pm rule), and maps "1-2pm" to 13:00 and 14:00. -/
theorem C7_time_range_cases :
    parseTimeRange "6:30-7:30am" = some ⟨⟨6, 30⟩, ⟨7, 30⟩⟩ ∧
    parseTimeRange "11-12pm" = some ⟨⟨11, 0⟩, ⟨12, 0⟩⟩ ∧
    parseTimeRange "1-2pm" = some ⟨⟨13, 0⟩, ⟨14, 0⟩⟩ := by
  refine ⟨by decide, by decide, by decide⟩

/-- C4: with the confirm flag false, the reconciliation run issues no
delete operation at all, for every deleteSeries flag and listed event set,
and only reports the planned instance and series counts. -/
theorem C4_dry_run_no_deletes (ds : Bool) (evs : List RemoteEvent) :
    (reconcile false ds evs).deletes = [] ∧
    (reconcile false ds evs).planned =
      ((classifyEvents ds evs).1.length, (classifyEvents ds evs).2.length) := by
  unfold reconcile
  split
  · next h =>
    have hnil : evs = [] := List.length_eq_zero.mp h
    subst hnil
    simp [classifyEvents]
  · simp

theorem mem_jsSetAdd (l : List String) (x y : String) :
    y ∈ jsSetAdd l x ↔ y ∈ l ∨ y = x := by
  unfold jsSetAdd
  split
  · next hx =>
    constructor
    · exact fun hy => Or.inl hy
    · rintro (hy | rfl)
      · exact hy
      · exact hx
  · simp [List.mem_append]

theorem nodup_jsSetAdd (l : List String) (x : String) (h : l.Nodup) :
    (jsSetAdd l x).Nodup := by
  unfold jsSetAdd
  split
  · exact h
  · next hx =>
    refine List.Nodup.append h (List.nodup_singleton x) ?_
    intro a ha hb
    simp only [List.mem_singleton] at hb
    exact hx (hb ▸ ha)

theorem classifyEvents_fst_aux (ds : Bool) :
    ∀ (evs : List RemoteEvent) (acc : List String × List String),
      (evs.foldl (classifyStep ds) acc).1 =
        acc.1 ++ (evs.filter (fun e => !(ds && hasRecurringId e))).map
          (fun e => e.id) := by
  intro evs
  induction evs with
  | nil => intro acc; simp
  | cons e rest ih =>
    intro acc
    simp only [List.foldl_cons, List.filter_cons]
    cases hc : (ds && hasRecurringId e) with
    | true => simp [classifyStep, hc, ih]
    | false => simp [classifyStep, hc, ih]

theorem classifyEvents_snd_mem_aux (ds : Bool) :
    ∀ (evs : List RemoteEvent) (acc : List String × List String) (sid : String),
      sid ∈ (evs.foldl (classifyStep ds) acc).2 ↔
        sid ∈ acc.2 ∨
          sid ∈ (evs.filter (fun e => ds && hasRecurringId e)).map
            (fun e => e.recurringEventId.getD "") := by
  intro evs
  induction evs with
  | nil => intro acc sid; simp
  | cons e rest ih =>
    intro acc sid
    simp only [List.foldl_cons, List.filter_cons]
    by_cases hc : (ds && hasRecurringId e) = true
    · simp only [classifyStep, hc, if_true]
      rw [ih]
      simp [mem_jsSetAdd, hc]
      tauto
    · simp only [classifyStep, hc, if_false]
      rw [ih]
      simp [hc]

theorem classifyEvents_snd_nodup_aux (ds : Bool) :
    ∀ (evs : List RemoteEvent) (acc : List String × List String),
      acc.2.Nodup → (evs.foldl (classifyStep ds) acc).2.Nodup := by
  intro evs
  induction evs with
  | nil => intro acc h; simpa using h
  | cons e rest ih =>
    intro acc h
    simp only [List.foldl_cons]
    by_cases hc : (ds && hasRecurringId e) = true
    · simp only [classifyStep, hc, if_true]
      exact ih _ (nodup_jsSetAdd _ _ h)
    · simp only [classifyStep, hc, if_false]
      exact ih _ h

/-- C3: the classification puts every listed event on exactly one side of
the plan: the instance list is exactly the ids of the events that are not
(deleteSeries and recurring), the series set contains exactly the
recurring-series ids of the remaining events, deduplicated (it is
duplicate free), and two occurrences of series S1 under deleteSeries
produce the plan with series set S1 and no instances. -/
theorem C3_classification (ds : Bool) (evs : List RemoteEvent) :
    (classifyEvents ds evs).1 =
        (evs.filter (fun e => !(ds && hasRecurringId e))).map (fun e => e.id) ∧
    (classifyEvents ds evs).2.Nodup ∧
    (∀ sid, sid ∈ (classifyEvents ds evs).2 ↔
        sid ∈ (evs.filter (fun e => ds && hasRecurringId e)).map
          (fun e => e.recurringEventId.getD "")) ∧
    classifyEvents true [⟨"E1", some "S1"⟩, ⟨"E2", some "S1"⟩] = ([], ["S1"]) := by
  refine ⟨?_, ?_, ?_, by decide⟩
  · simpa [classifyEvents] using classifyEvents_fst_aux ds evs ([], [])
  · exact classifyEvents_snd_nodup_aux ds evs ([], []) (by simp)
  · intro sid
    simpa [classifyEvents] using classifyEvents_snd_mem_aux ds evs ([], []) sid

/-- C3 witness: the concrete deduplication scenario, by the theorem. -/
theorem C3_classification_witness :
    classifyEvents true [⟨"E1", some "S1"⟩, ⟨"E2", some "S1"⟩] = ([], ["S1"]) :=
  (C3_classification true [⟨"E1", some "S1"⟩, ⟨"E2", some "S1"⟩]).2.2.2

/-- C5 counterexample: a delete whose first attempt fails with status 404
is raised by `deleteEvent` (with no retry wait), not completed as a
successful no-op, contradicting the claim that NotFound is treated as a
success. -/
theorem C5_notfound_counterexample :
    (deleteEvent (fun _ => .failure (some 404))).result = .thrown (some 404) ∧
    (deleteEvent (fun _ => .failure (some 404))).result ≠ .ok ∧
    (deleteEvent (fun _ => .failure (some 404))).waits = [] := by
  refine ⟨by decide, by decide, by decide⟩

/-- C5 amended: a NotFound (404) failure is not in the transient
allow-list, so `deleteEvent` raises it immediately, without any retry; the
reconciliation loop catches the raised failure, logs it, and continues
with the remaining ids. -/
theorem C5_notfound_amended (o : Nat → DeleteOutcome)
    (h : o 0 = .failure (some 404)) :
    deleteEvent o = ⟨[], .thrown (some 404)⟩ := by
  unfold deleteEvent
  exact deleteEventLoop_throws o maxRetries 0 (some 404) h (by decide)

/-- C5 witness: the amended theorem applied at the constant-404 outcome
sequence. -/
theorem C5_notfound_witness :
    deleteEvent (fun _ => DeleteOutcome.failure (some 404)) =
      ⟨[], .thrown (some 404)⟩ :=
  C5_notfound_amended (fun _ => DeleteOutcome.failure (some 404)) rfl

/-- C6: the retry policy of `deleteEvent`: a failure with a status outside
the fixed allow-list is raised immediately with no wait; three retryable
failures followed by a success complete without error after waits of 1, 2
and 4 seconds (inside the attempt budget); every run performs at most 5
retries after the first attempt; the waits always form a prefix of the
capped doubling schedule 1s, 2s, 4s, 8s, 10s; and the allow-list gates
every attempt, not just the first: a non-retryable failure at any attempt
`k` (after `k` retryable failures) is raised at once, with exactly the `k`
earlier waits and no wait or retry for attempt `k` itself. -/
theorem C6_retry_policy :
    (∀ (o : Nat → DeleteOutcome) (st : Option Int),
        o 0 = .failure st → statusRetryable st = false →
        deleteEvent o = ⟨[], .thrown st⟩) ∧
    (∀ (o : Nat → DeleteOutcome) (s0 s1 s2 : Option Int),
        o 0 = .failure s0 → o 1 = .failure s1 → o 2 = .failure s2 →
        statusRetryable s0 = true → statusRetryable s1 = true →
        statusRetryable s2 = true → o 3 = .success →
        deleteEvent o = ⟨[1000, 2000, 4000], .ok⟩) ∧
    (∀ o : Nat → DeleteOutcome, (deleteEvent o).waits.length ≤ 5) ∧
    (∀ o : Nat → DeleteOutcome,
        (deleteEvent o).waits = fullBackoff.take (deleteEvent o).waits.length) ∧
    (∀ (o : Nat → DeleteOutcome) (k : Nat) (st : Option Int),
        k ≤ 5 →
        (∀ j, j < k → outcomeRetryableFailure (o j) = true) →
        o k = .failure st → statusRetryable st = false →
        deleteEvent o = ⟨fullBackoff.take k, .thrown st⟩) := by
  refine ⟨?_, ?_, ?_, ?_, ?_⟩
  · intro o st h hst
    unfold deleteEvent
    exact deleteEventLoop_throws o maxRetries 0 st h (by simp [hst])
  · intro o s0 s1 s2 h0 h1 h2 hr0 hr1 hr2 h3
    have e3 : deleteEventLoop o 3 3 = ⟨[], .ok⟩ := deleteEventLoop_stops o 2 3 h3
    have e2 : deleteEventLoop o 4 2 =
        ⟨min (1000 * 2 ^ 2 : Int) 10000 :: (deleteEventLoop o 3 3).waits,
          (deleteEventLoop o 3 3).result⟩ :=
      deleteEventLoop_retry o 3 2 s2 h2 (by decide) hr2
    have e1 : deleteEventLoop o 5 1 =
        ⟨min (1000 * 2 ^ 1 : Int) 10000 :: (deleteEventLoop o 4 2).waits,
          (deleteEventLoop o 4 2).result⟩ :=
      deleteEventLoop_retry o 4 1 s1 h1 (by decide) hr1
    have e0 : deleteEventLoop o 6 0 =
        ⟨min (1000 * 2 ^ 0 : Int) 10000 :: (deleteEventLoop o 5 1).waits,
          (deleteEventLoop o 5 1).result⟩ :=
      deleteEventLoop_retry o 5 0 s0 h0 (by decide) hr0
    have : deleteEvent o = deleteEventLoop o 6 0 := rfl
    rw [this, e0, e1, e2, e3]
    norm_num
  · intro o
    have h := (deleteEventLoop_spec o 6 0 rfl).2
    simpa [deleteEvent, maxRetries] using h
  · intro o
    have h := (deleteEventLoop_spec o 6 0 rfl).1
    simpa [deleteEvent, maxRetries] using h
  · intro o k st hk5 hprev hk hst
    have h := deleteEventLoop_gated o 6 0 rfl k (Nat.zero_le k) hk5
      (fun j _ hj => hprev j hj) st hk hst
    simpa [deleteEvent, maxRetries] using h

/-- C6 witness: three 503 failures then success, a non-retryable 400 on
the first attempt, and a mid-sequence 404 after two retryable 503
failures, by the theorem. -/
theorem C6_retry_policy_witness :
    deleteEvent (fun k => if k < 3 then .failure (some 503) else .success) =
      ⟨[1000, 2000, 4000], .ok⟩ ∧
    deleteEvent (fun _ => .failure (some 400)) = ⟨[], .thrown (some 400)⟩ ∧
    deleteEvent (fun k => if k < 2 then .failure (some 503) else .failure (some 404)) =
      ⟨[1000, 2000], .thrown (some 404)⟩ := by
  refine ⟨?_, ?_, ?_⟩
  · exact C6_retry_policy.2.1 (fun k => if k < 3 then .failure (some 503) else .success)
      (some 503) (some 503) (some 503) rfl rfl rfl (by decide) (by decide) (by decide) rfl
  · exact C6_retry_policy.1 (fun _ => .failure (some 400)) (some 400) rfl (by decide)
  · exact (C6_retry_policy.2.2.2.2
      (fun k => if k < 2 then .failure (some 503) else .failure (some 404))
      2 (some 404) (by decide) (by decide) rfl (by decide)).trans (by decide)

/-- C1: code-bug evidence for the recurrence bound.  The compiled rule has
the claimed shape RRULE:FREQ=WEEKLY;BYDAY=MO;UNTIL=..., but with the host
clock on UTC and the configured zone EST (UTC minus 5, no daylight
saving), the bound the code emits for season end 2025-12-21 is
20251221T185959Z, while the absolute UTC instant of 23:59:59 EST wall time
on that date is 20251222T045959Z; with the host clock itself on EST the
code emits 20251221T235959Z, still not the claimed instant.  The code
applies the zone offset in the wrong direction and depends on the host
timezone. -/
theorem C1_until_bound_divergence :
    buildEventObject estEnv 0 cfgC1 ruleC1 "MO" "Gellert" = some
      { summary := "Adult Swim", description := "Adult",
        location := "10241 Eighth Line", colorId := "9",
        startDateTime := "2025-09-08T06:30:00", endDateTime := "2025-09-08T07:30:00",
        timeZone := "EST",
        recurrence := "RRULE:FREQ=WEEKLY;BYDAY=MO;UNTIL=20251221T185959Z",
        privSource := "pool-schedule",
        privKey := "Adult Swim-Gellert-MO-06:30-07:30-2025-09-02-2025-12-21" } ∧
    untilBoundPerSpec ⟨2025, 12, 21, 23, 59, 59⟩ "EST" estEnv = "20251222T045959Z" ∧
    tzWallToUTC_ZString ⟨2025, 12, 21, 23, 59, 59⟩ "EST" estEnv 300 =
      "20251221T235959Z" ∧
    ("20251221T185959Z" : String) ≠ "20251222T045959Z" ∧
    ("20251221T235959Z" : String) ≠ "20251222T045959Z" := by
  refine ⟨by decide, by decide, by decide, by decide, by decide⟩

/-- C10: the inferred color id is never empty; a missing (undefined or
null) place color falls back to the color derived from the global
configuration; a place color that is the empty string yields the default
token 1 directly, skipping the global default; and numeric color values
are rendered as decimal strings. -/
theorem C10_inferColorId (place : String) (cfg : CalendarConfig) :
    inferColorId place cfg ≠ "" ∧
    ((placeConfig place cfg).bind (fun c => c.colorId) = none →
      inferColorId place cfg = globalColorIdString cfg) ∧
    ((placeConfig place cfg).bind (fun c => c.colorId) = some (ColorVal.str "") →
      inferColorId place cfg = "1") ∧
    (∀ n : Int,
      (placeConfig place cfg).bind (fun c => c.colorId) = some (ColorVal.num n) →
      inferColorId place cfg = jsIntToString n) := by
  unfold inferColorId
  cases hpc : (placeConfig place cfg).bind (fun c => c.colorId) with
  | none =>
    simp only []
    refine ⟨?_, ?_, ?_, ?_⟩
    · cases hg : cfg.colorId with
      | none => decide
      | some v =>
        simp only []
        split
        · decide
        · next hne =>
          cases v with
          | str s =>
            intro habs
            simp only [jsStringOfColor] at habs
            exact hne (by rw [habs])
          | num n => exact jsIntToString_ne_empty n
    · intro _
      unfold globalColorIdString
      rfl
    · intro h
      exact absurd h (by simp)
    · intro n h
      exact absurd h (by simp)
  | some v =>
    simp only []
    refine ⟨?_, ?_, ?_, ?_⟩
    · split
      · decide
      · next hne =>
        cases v with
        | str s =>
          intro habs
          simp only [jsStringOfColor] at habs
          exact hne (by rw [habs])
        | num n => exact jsIntToString_ne_empty n
    · intro h
      exact absurd h (by simp)
    · intro h
      have hv : v = ColorVal.str "" := by injection h
      rw [if_pos hv]
    · intro n h
      have hv : v = ColorVal.num n := by injection h
      subst hv
      rw [if_neg (by simp)]
      rfl

/-- C10 witness: an empty-string place color skips the configured global
color 5 and yields the default token, by the theorem. -/
theorem C10_inferColorId_witness :
    (placeConfig "Gellert" cfgC10).bind (fun c => c.colorId) =
        some (ColorVal.str "") ∧
    inferColorId "Gellert" cfgC10 = "1" :=
  ⟨by decide, (C10_inferColorId "Gellert" cfgC10).2.2.1 (by decide)⟩

/-- C8: the first occurrence computed for a recognized weekday code lies
on or after the season start date, at most 6 days after it, and falls on
the requested weekday (day numbers order civil dates and `jsGetDay` reads
the weekday). -/
theorem C8_first_occurrence (ymd : Ymd) (byDay : String) (idx : Int)
    (h : BYDAY_TO_INDEX byDay = some idx) :
    daysFromCivil ymd.y ymd.m ymd.d ≤
        daysFromCivil (firstOccurrenceOnOrAfter ymd idx).y
          (firstOccurrenceOnOrAfter ymd idx).m (firstOccurrenceOnOrAfter ymd idx).d ∧
    daysFromCivil (firstOccurrenceOnOrAfter ymd idx).y
        (firstOccurrenceOnOrAfter ymd idx).m (firstOccurrenceOnOrAfter ymd idx).d ≤
      daysFromCivil ymd.y ymd.m ymd.d + 6 ∧
    jsGetDay (daysFromCivil (firstOccurrenceOnOrAfter ymd idx).y
        (firstOccurrenceOnOrAfter ymd idx).m
        (firstOccurrenceOnOrAfter ymd idx).d) = idx := by
  have hidx : 0 ≤ idx ∧ idx ≤ 6 := by
    unfold BYDAY_TO_INDEX at h
    split_ifs at h <;> simp_all <;> omega
  unfold firstOccurrenceOnOrAfter
  rw [daysFromCivil_civilFromDays]
  unfold jsGetDay
  refine ⟨?_, ?_, ?_⟩ <;> omega

/-- C8 witness: season start 2025-09-02 (a Tuesday) and weekday code MO,
by the theorem. -/
theorem C8_first_occurrence_witness :
    BYDAY_TO_INDEX "MO" = some 1 ∧
    (daysFromCivil 2025 9 2 ≤
        daysFromCivil (firstOccurrenceOnOrAfter ⟨2025, 9, 2⟩ 1).y
          (firstOccurrenceOnOrAfter ⟨2025, 9, 2⟩ 1).m
          (firstOccurrenceOnOrAfter ⟨2025, 9, 2⟩ 1).d ∧
      daysFromCivil (firstOccurrenceOnOrAfter ⟨2025, 9, 2⟩ 1).y
          (firstOccurrenceOnOrAfter ⟨2025, 9, 2⟩ 1).m
          (firstOccurrenceOnOrAfter ⟨2025, 9, 2⟩ 1).d ≤
        daysFromCivil 2025 9 2 + 6 ∧
      jsGetDay (daysFromCivil (firstOccurrenceOnOrAfter ⟨2025, 9, 2⟩ 1).y
          (firstOccurrenceOnOrAfter ⟨2025, 9, 2⟩ 1).m
          (firstOccurrenceOnOrAfter ⟨2025, 9, 2⟩ 1).d) = 1) :=
  ⟨by decide, C8_first_occurrence ⟨2025, 9, 2⟩ "MO" 1 (by decide)⟩

/-- Splitting a concatenation at a separator character that occurs in
neither left part determines both parts. -/
theorem sep_split : ∀ (a₁ a₂ r₁ r₂ : List Char), '-' ∉ a₁ → '-' ∉ a₂ →
    a₁ ++ '-' :: r₁ = a₂ ++ '-' :: r₂ → a₁ = a₂ ∧ r₁ = r₂ := by
  intro a₁
  induction a₁ with
  | nil =>
    intro a₂ r₁ r₂ _ h2 h
    cases a₂ with
    | nil => simpa using h
    | cons c t =>
      simp only [List.nil_append, List.cons_append, List.cons.injEq] at h
      exfalso
      apply h2
      rw [← h.1]
      exact List.mem_cons_self _ _
  | cons c t ih =>
    intro a₂ r₁ r₂ h1 h2 h
    cases a₂ with
    | nil =>
      simp only [List.nil_append, List.cons_append, List.cons.injEq] at h
      exfalso
      apply h1
      rw [h.1]
      exact List.mem_cons_self _ _
    | cons c2 t2 =>
      simp only [List.cons_append, List.cons.injEq] at h
      obtain ⟨hc, ht⟩ := h
      have hrec := ih t2 r₁ r₂ (fun hm => h1 (List.mem_cons_of_mem _ hm))
        (fun hm => h2 (List.mem_cons_of_mem _ hm)) ht
      exact ⟨by rw [hc, hrec.1], hrec.2⟩

/-- C2 counterexample: two rules with distinct places (same day, time and
season) whose idempotency keys are byte-identical, because the dash join
lets content shift between the summary and the place. -/
theorem C2_key_collision_counterexample :
    makePrivateKey ruleC2a "MO" "a-b" "2025-09-02" "2025-12-21" =
      makePrivateKey ruleC2b "MO" "b" "2025-09-02" "2025-12-21" ∧
    ("a-b" : String) ≠ "b" := by
  refine ⟨by decide, by decide⟩

/-- C2 amended: the idempotency key is the dash join of summary, place,
weekday code, start time, end time, season start and season end; it is a
pure function of those inputs (recompiling equal inputs gives identical
keys); and it is collision free whenever the place contains no dash and
the remaining fields have the shapes the pipeline produces (two-character
codes, five-character HH:MM times, ten-character YYYY-MM-DD dates): equal
keys then force all seven components, the summary included, to be
equal. -/
theorem C2_key_amended (r₁ r₂ : ScheduleRule) (b₁ b₂ p₁ p₂ ss₁ ss₂ se₁ se₂ : String)
    (hb₁ : b₁.length = 2) (hb₂ : b₂.length = 2)
    (hst₁ : r₁.startTime.length = 5) (hst₂ : r₂.startTime.length = 5)
    (het₁ : r₁.endTime.length = 5) (het₂ : r₂.endTime.length = 5)
    (hss₁ : ss₁.length = 10) (hss₂ : ss₂.length = 10)
    (hse₁ : se₁.length = 10) (hse₂ : se₂.length = 10)
    (hp₁ : '-' ∉ p₁.data) (hp₂ : '-' ∉ p₂.data) :
    makePrivateKey r₁ b₁ p₁ ss₁ se₁ =
        r₁.summary ++ "-" ++ p₁ ++ "-" ++ b₁ ++ "-" ++ r₁.startTime ++ "-" ++
          r₁.endTime ++ "-" ++ ss₁ ++ "-" ++ se₁ ∧
    (r₁ = r₂ → b₁ = b₂ → p₁ = p₂ → ss₁ = ss₂ → se₁ = se₂ →
      makePrivateKey r₁ b₁ p₁ ss₁ se₁ = makePrivateKey r₂ b₂ p₂ ss₂ se₂) ∧
    (makePrivateKey r₁ b₁ p₁ ss₁ se₁ = makePrivateKey r₂ b₂ p₂ ss₂ se₂ →
      r₁.summary = r₂.summary ∧ p₁ = p₂ ∧ b₁ = b₂ ∧
        r₁.startTime = r₂.startTime ∧ r₁.endTime = r₂.endTime ∧
        ss₁ = ss₂ ∧ se₁ = se₂) := by
  refine ⟨rfl, ?_, ?_⟩
  · intro h1 h2 h3 h4 h5
    subst h1; subst h2; subst h3; subst h4; subst h5
    rfl
  · intro hk
    have hdash : ("-" : String).data = ['-'] := rfl
    have hd := congrArg String.data hk
    simp only [makePrivateKey, String.data_append, hdash, List.append_assoc,
      List.singleton_append] at hd
    simp only [← List.cons_append, ← List.append_assoc] at hd
    obtain ⟨hd, hse⟩ := List.append_inj' hd
      (by simp only [List.length_cons]
          rw [show se₁.data.length = 10 from hse₁,
            show se₂.data.length = 10 from hse₂])
    obtain ⟨hd, hss⟩ := List.append_inj' hd
      (by simp only [List.length_cons]
          rw [show ss₁.data.length = 10 from hss₁,
            show ss₂.data.length = 10 from hss₂])
    obtain ⟨hd, het⟩ := List.append_inj' hd
      (by simp only [List.length_cons]
          rw [show r₁.endTime.data.length = 5 from het₁,
            show r₂.endTime.data.length = 5 from het₂])
    obtain ⟨hd, hst⟩ := List.append_inj' hd
      (by simp only [List.length_cons]
          rw [show r₁.startTime.data.length = 5 from hst₁,
            show r₂.startTime.data.length = 5 from hst₂])
    obtain ⟨hd, hb⟩ := List.append_inj' hd
      (by simp only [List.length_cons]
          rw [show b₁.data.length = 2 from hb₁, show b₂.data.length = 2 from hb₂])
    simp only [List.cons.injEq, true_and] at hse hss het hst hb
    have hx := congrArg List.reverse hd
    simp only [List.reverse_append, List.reverse_cons, List.append_assoc,
      List.singleton_append] at hx
    have hps := sep_split _ _ _ _ (by simpa using hp₁) (by simpa using hp₂) hx
    refine ⟨?_, ?_, ?_, ?_, ?_, ?_, ?_⟩
    · exact String.ext (List.reverse_inj.mp hps.2)
    · exact String.ext (List.reverse_inj.mp hps.1)
    · exact String.ext hb
    · exact String.ext hst
    · exact String.ext het
    · exact String.ext hss
    · exact String.ext hse

/-- C2 witness: all shape hypotheses hold for a real pipeline rule, and
equal keys force equal components, by the theorem. -/
theorem C2_key_amended_witness :
    ("MO" : String).length = 2 ∧ ruleC2w.startTime.length = 5 ∧
    ("2025-09-02" : String).length = 10 ∧ ('-' ∉ ("Gellert" : String).data) ∧
    (makePrivateKey ruleC2w "MO" "Gellert" "2025-09-02" "2025-12-21" =
        makePrivateKey ruleC2w "MO" "Gellert" "2025-09-02" "2025-12-21" →
      ruleC2w.summary = ruleC2w.summary ∧ ("Gellert" : String) = "Gellert" ∧
        ("MO" : String) = "MO" ∧ ruleC2w.startTime = ruleC2w.startTime ∧
        ruleC2w.endTime = ruleC2w.endTime ∧
        ("2025-09-02" : String) = "2025-09-02" ∧
        ("2025-12-21" : String) = "2025-12-21") :=
  ⟨by decide, by decide, by decide, by decide,
    (C2_key_amended ruleC2w ruleC2w "MO" "MO" "Gellert" "Gellert"
        "2025-09-02" "2025-09-02" "2025-12-21" "2025-12-21"
        (by decide) (by decide) (by decide) (by decide) (by decide) (by decide)
        (by decide) (by decide) (by decide) (by decide) (by decide)
        (by decide)).2.2⟩

theorem parseRowsLoop_blank_skip (lp ld : String) (r : List String)
    (rest : List (List String)) (h : isBlankRow r = true) :
    parseRowsLoop lp ld (r :: rest) = parseRowsLoop lp ld rest := by
  simp [parseRowsLoop, h]

theorem parseRowsLoop_ok_fields :
    ∀ (records : List (List String)) (lp ld : String) (rows : List ParsedRow),
      parseRowsLoop lp ld records = .ok rows →
      ∀ pr ∈ rows, pr.place ≠ "" ∧ pr.day ≠ "" ∧ pr.timeRange ≠ "" := by
  intro records
  induction records with
  | nil =>
    intro lp ld rows h pr hpr
    simp only [parseRowsLoop, RowsOut.ok.injEq] at h
    subst h
    simp at hpr
  | cons r rest ih =>
    intro lp ld rows h pr hpr
    simp only [parseRowsLoop] at h
    split at h
    · exact ih lp ld rows h pr hpr
    · split at h
      · exact ih _ _ rows h pr hpr
      · next hcond =>
        push_neg at hcond
        split at h
        · exact absurd h (by simp)
        · split at h
          · next rs hrec =>
            simp only [RowsOut.ok.injEq] at h
            subst h
            rcases List.mem_cons.mp hpr with rfl | hmem
            · exact ⟨hcond.1, hcond.2.1, hcond.2.2⟩
            · exact ih _ _ rs hrec pr hmem
          · exact absurd h (by simp)

theorem parseRowsLoop_skip_update (lp ld : String) (r : List String)
    (rest : List (List String)) (hb : isBlankRow r = false)
    (hskip : carryPlace lp r = "" ∨ carryDay ld r = "" ∨ cellAt r 2 = "") :
    parseRowsLoop lp ld (r :: rest) =
      parseRowsLoop (carryPlace lp r) (carryDay ld r) rest := by
  simp [parseRowsLoop, hb, hskip]

theorem parseRowsLoop_badDay (lp ld : String) (r : List String)
    (rest : List (List String)) (hb : isBlankRow r = false)
    (hp : carryPlace lp r ≠ "") (hd : carryDay ld r ≠ "") (ht : cellAt r 2 ≠ "")
    (hc : BYDAY (carryDay ld r) = none) :
    parseRowsLoop lp ld (r :: rest) = .badDay (carryDay ld r) := by
  have hno : ¬(carryPlace lp r = "" ∨ carryDay ld r = "" ∨ cellAt r 2 = "") := by
    push_neg
    exact ⟨hp, hd, ht⟩
  simp [parseRowsLoop, hb, hno, hc]

theorem parseRowsLoop_emit (lp ld : String) (r : List String)
    (rest : List (List String)) (code : String) (hb : isBlankRow r = false)
    (hp : carryPlace lp r ≠ "") (hd : carryDay ld r ≠ "") (ht : cellAt r 2 ≠ "")
    (hc : BYDAY (carryDay ld r) = some code) :
    parseRowsLoop lp ld (r :: rest) =
      match parseRowsLoop (carryPlace lp r) (carryDay ld r) rest with
      | .ok rs =>
        .ok (⟨carryPlace lp r, carryDay ld r, code, cellAt r 2, cellAt r 3⟩ :: rs)
      | .badDay e => .badDay e := by
  have hno : ¬(carryPlace lp r = "" ∨ carryDay ld r = "" ∨ cellAt r 2 = "") := by
    push_neg
    exact ⟨hp, hd, ht⟩
  simp [parseRowsLoop, hb, hno, hc]

/-- C9 amended: a row that is entirely blank is skipped without changing
the carry-forward state; the carried place/day of a row are its own cells
when non-blank and the previous values otherwise; a non-blank row whose
resolved place, day or time is empty is skipped but still carries the
updated state forward; a non-blank row with non-empty resolved place, day
and time becomes a ScheduleRow with exactly those resolved fields when the
resolved day is recognized, and aborts the parse when it is not; every
materialized ScheduleRow has non-empty place, day and time; and a concrete
run shows blank cells inheriting values carried forward both across an
all-blank row and from a skipped time-less row. -/
theorem C9_rows_amended :
    (∀ (lp ld : String) (r : List String) (rest : List (List String)),
        isBlankRow r = true →
        parseRowsLoop lp ld (r :: rest) = parseRowsLoop lp ld rest) ∧
    (∀ (lp : String) (r : List String),
        (cellAt r 0 ≠ "" → carryPlace lp r = cellAt r 0) ∧
        (cellAt r 0 = "" → carryPlace lp r = lp)) ∧
    (∀ (ld : String) (r : List String),
        (cellAt r 1 ≠ "" → carryDay ld r = cellAt r 1) ∧
        (cellAt r 1 = "" → carryDay ld r = ld)) ∧
    (∀ (lp ld : String) (r : List String) (rest : List (List String)),
        isBlankRow r = false →
        (carryPlace lp r = "" ∨ carryDay ld r = "" ∨ cellAt r 2 = "") →
        parseRowsLoop lp ld (r :: rest) =
          parseRowsLoop (carryPlace lp r) (carryDay ld r) rest) ∧
    (∀ (lp ld : String) (r : List String) (rest : List (List String)),
        isBlankRow r = false →
        carryPlace lp r ≠ "" → carryDay ld r ≠ "" → cellAt r 2 ≠ "" →
        BYDAY (carryDay ld r) = none →
        parseRowsLoop lp ld (r :: rest) = .badDay (carryDay ld r)) ∧
    (∀ (lp ld : String) (r : List String) (rest : List (List String))
        (code : String),
        isBlankRow r = false →
        carryPlace lp r ≠ "" → carryDay ld r ≠ "" → cellAt r 2 ≠ "" →
        BYDAY (carryDay ld r) = some code →
        parseRowsLoop lp ld (r :: rest) =
          match parseRowsLoop (carryPlace lp r) (carryDay ld r) rest with
          | .ok rs =>
            .ok (⟨carryPlace lp r, carryDay ld r, code, cellAt r 2,
              cellAt r 3⟩ :: rs)
          | .badDay e => .badDay e) ∧
    (∀ (records : List (List String)) (lp ld : String) (rows : List ParsedRow),
        parseRowsLoop lp ld records = .ok rows →
        ∀ pr ∈ rows, pr.place ≠ "" ∧ pr.day ≠ "" ∧ pr.timeRange ≠ "") ∧
    parseRowsLoop "" ""
        [["Gellert", "Monday", "6:30-7:30am", "Adult"], ["", "", "", ""],
          ["Acton", "Tuesday", "", "note"], ["", "", "8-9am", "Lane"]] =
      .ok [⟨"Gellert", "Monday", "MO", "6:30-7:30am", "Adult"⟩,
        ⟨"Acton", "Tuesday", "TU", "8-9am", "Lane"⟩] :=
  ⟨parseRowsLoop_blank_skip,
    fun lp r => ⟨fun h => if_neg h, fun h => if_pos h⟩,
    fun ld r => ⟨fun h => if_neg h, fun h => if_pos h⟩,
    parseRowsLoop_skip_update, parseRowsLoop_badDay, parseRowsLoop_emit,
    parseRowsLoop_ok_fields, by decide⟩

/-- C9 counterexample: a non-blank row (place and day present, swim label
present, but no time cell) does not become a ScheduleRow, contradicting
the claim that every non-blank row after the header becomes one. -/
theorem C9_nonblank_skipped_counterexample :
    parseRowsLoop "" "" [["Gellert", "Monday", "", "Lane"]] = .ok [] ∧
    isBlankRow ["Gellert", "Monday", "", "Lane"] = false := by
  refine ⟨by decide, by decide⟩

/-- C9 witness: an all-blank row is skipped without touching carry-forward
state, and a row with blank place/day cells materializes with the
carried-forward values, both by the theorem. -/
theorem C9_rows_witness :
    isBlankRow ["", "", "", ""] = true ∧
    parseRowsLoop "Gellert" "Monday" [["", "", "", ""]] =
      parseRowsLoop "Gellert" "Monday" [] ∧
    parseRowsLoop "Acton" "Tuesday" [["", "", "8-9am", "Lane"]] =
      RowsOut.ok [⟨"Acton", "Tuesday", "TU", "8-9am", "Lane"⟩] :=
  ⟨by decide,
    C9_rows_amended.1 "Gellert" "Monday" ["", "", "", ""] [] (by decide),
    (C9_rows_amended.2.2.2.2.2.1 "Acton" "Tuesday" ["", "", "8-9am", "Lane"] []
        "TU" (by decide) (by decide) (by decide) (by decide) (by decide)).trans
      (by decide)⟩
